import Mathlib

/-!
Verification of `tools/generate_audio.py`: a command-line utility that reads a
JSON-described walking tour (`tour.json`), synthesizes one audio file per stop
via an external TTS service, and optionally back-fills each stop's audio
duration into the JSON document.

The external collaborators (the TTS provider, the filesystem, the `mutagen`
metadata reader) are modelled as oracles passed in as parameters:
  * the filesystem is the list of paths of existing files;
  * synthesis is an oracle `synthOk : Stop → Bool` (`false` = the call raises);
  * duration reading is an oracle `readLen : String → Option ℚ`
    (`none` = `MP3(...)` raises; `some q` = `audio.info.length = q`).
Observable behaviour (reads, directory creation, skips, synthesis calls,
failures) is recorded as an explicit event trace.
-/

/-- One stop of the tour, mirroring the JSON object fields used by the script:
`id`, `name`, `script`, optional `audioFile`, optional `audioDuration`. -/
structure Stop where
  id : Nat
  name : String
  script : String
  audioFile : Option String
  audioDuration : Option Int
deriving DecidableEq

/-- The parsed `tour.json` document: a tour name and the ordered stop list. -/
structure Tour where
  name : String
  stops : List Stop
deriving DecidableEq

/-- `Char` for a single decimal digit `d < 10`, as Python's `str` renders it. -/
def digitChar (d : Nat) : Char := Char.ofNat (48 + d)

/-- Fuel-driven decimal rendering (most significant digit first); structural
recursion on the fuel so that the kernel can evaluate it. -/
def natDigitsF : Nat → Nat → List Char
  | 0, _ => []
  | fuel + 1, n =>
    if n < 10 then [digitChar n]
    else natDigitsF fuel (n / 10) ++ [digitChar (n % 10)]

/-- The decimal digit characters of `n`, most significant first: the embedding
of Python's `str(n)` for a nonnegative integer. -/
def natDigits (n : Nat) : List Char := natDigitsF (n + 1) n

/-- Python's `str(n)` for `n : Nat`. -/
def natStr (n : Nat) : String := String.mk (natDigits n)

/-- Python's `f"{n:02d}"` for a nonnegative `n`: pad with a leading `0` to
width two. -/
def format02 (n : Nat) : String := if n < 10 then "0" ++ natStr n else natStr n

/-- `pathlib`'s `/` on our string model of paths. -/
def joinPath (a b : String) : String := a ++ "/" ++ b

/-- Python's `s.startswith(pre)`. -/
def pyStartsWith (s pre : String) : Bool := pre.data.isPrefixOf s.data

/-- Audio path resolution as written in `process_tour` (the write side):
`audio_file = stop.get('audioFile', f"audio/{stop_id:02d}-stop.mp3")`, then
paths starting with `audio/` are joined directly under the tour folder and
all others under the tour folder's `audio` subdirectory. -/
def resolveWrite (tourPath : String) (stop : Stop) : String :=
  let audio_file := stop.audioFile.getD ("audio/" ++ format02 stop.id ++ "-stop.mp3")
  if pyStartsWith audio_file "audio/" then joinPath tourPath audio_file
  else joinPath (joinPath tourPath "audio") audio_file

/-- Audio path resolution as written in `update_tour_durations` (the read
side): `audio_file = stop.get('audioFile', f"audio/{stop['id']:02d}-stop.mp3")`,
then the same `audio/`-prefix normalization. -/
def resolveRead (tourPath : String) (stop : Stop) : String :=
  let audio_file := stop.audioFile.getD ("audio/" ++ format02 stop.id ++ "-stop.mp3")
  if pyStartsWith audio_file "audio/" then joinPath tourPath audio_file
  else joinPath (joinPath tourPath "audio") audio_file

/-- Observable events of a `process_tour` run. -/
inductive Event where
  /-- `tour.json` was opened and parsed. -/
  | readTour : Event
  /-- the `audio` directory was created (`mkdir(exist_ok=True)`). -/
  | mkdirAudio : Event
  /-- the stop was skipped because its file exists and overwrite is off. -/
  | skipped (id : Nat) : Event
  /-- synthesis was called for the stop and the file at `path` was written. -/
  | synthesized (path : String) : Event
  /-- synthesis was called for the stop and raised; the run aborts. -/
  | failed (id : Nat) : Event
deriving DecidableEq

/-- Result of a `process_tour` run: the returned boolean, the final
filesystem (list of existing file paths), and the event trace. -/
structure RunResult where
  ok : Bool
  fs : List String
  events : List Event
deriving DecidableEq

/-- The per-stop loop of `process_tour`: skip when the target exists and
overwrite is off; otherwise synthesize, which either writes the file or
raises, in which case the function returns `False` at once. -/
def runStops (tourPath : String) (overwrite : Bool) (synthOk : Stop → Bool) :
    List Stop → List String → RunResult
  | [], fs => ⟨true, fs, []⟩
  | s :: rest, fs =>
    let path := resolveWrite tourPath s
    if fs.contains path && !overwrite then
      let r := runStops tourPath overwrite synthOk rest fs
      ⟨r.ok, r.fs, Event.skipped s.id :: r.events⟩
    else if synthOk s then
      let r := runStops tourPath overwrite synthOk rest (path :: fs)
      ⟨r.ok, r.fs, Event.synthesized path :: r.events⟩
    else
      ⟨false, fs, [Event.failed s.id]⟩

/-- `process_tour(tour_folder, voice, overwrite)`: abort returning `False`
when `tour.json` is missing; otherwise load the document (`tour` is the
parsed content of `tour.json`), create the `audio` directory, and process
the stops in order. -/
def process_tour (tourFolder : String) (tour : Tour) (overwrite : Bool)
    (synthOk : Stop → Bool) (fs : List String) : RunResult :=
  if fs.contains (joinPath tourFolder "tour.json") then
    let r := runStops tourFolder overwrite synthOk tour.stops fs
    ⟨r.ok, r.fs, Event.readTour :: Event.mkdirAudio :: r.events⟩
  else
    ⟨false, fs, []⟩

/-- Python's `str(i)` for `i : Int`. -/
def intStr (i : Int) : String :=
  if i < 0 then "-" ++ natStr i.natAbs else natStr i.natAbs

/-- Python's `int(q)` on a float/rational: truncation toward zero. -/
def pyInt (q : ℚ) : Int := q.num.tdiv q.den

/-- Minimal JSON string escaping (`\` and `"`), as `json.dump` with
`ensure_ascii=False` produces for the strings appearing in a tour document. -/
def escChar (c : Char) : List Char :=
  if c = '\\' then ['\\', '\\']
  else if c = '"' then ['\\', '"']
  else [c]

/-- A JSON string literal for `s`. -/
def jstr (s : String) : String :=
  String.mk ('"' :: s.data.flatMap escChar ++ ['"'])

/-- The lines of one stop object in `json.dump(tour, indent=2,
ensure_ascii=False)` form, with the `audioDuration` value supplied
separately (so that serializations differing only in durations can be
expressed); fields appear in the canonical order `id`, `name`, `script`,
`audioFile`, `audioDuration`, keys absent in the document being omitted. -/
def serializeStopD (s : Stop) (d : Option Int) : String :=
  "    \x7b\n      \"id\": " ++ natStr s.id ++
  ",\n      \"name\": " ++ jstr s.name ++
  ",\n      \"script\": " ++ jstr s.script ++
  (match s.audioFile with
   | some f => ",\n      \"audioFile\": " ++ jstr f
   | none => "") ++
  (match d with
   | some v => ",\n      \"audioDuration\": " ++ intStr v
   | none => "") ++
  "\n    \x7d"

/-- One stop object, serialized with its own `audioDuration` value. -/
def serializeStop (s : Stop) : String := serializeStopD s s.audioDuration

/-- Comma-and-newline separated concatenation, as `json.dump` joins the
elements of an indented array. -/
def joinLines : List String → String
  | [] => ""
  | [x] => x
  | x :: xs => x ++ ",\n" ++ joinLines xs

/-- `json.dump(tour, f, indent=2, ensure_ascii=False)` on the tour document,
with the list of stop serializations supplied. -/
def serializeWith (t : Tour) (stopStrs : List String) : String :=
  "\x7b\n  \"name\": " ++ jstr t.name ++
  ",\n  \"stops\": " ++
  (if stopStrs.isEmpty then "[]"
   else "[\n" ++ joinLines stopStrs ++ "\n  ]") ++
  "\n\x7d"

/-- The canonical serialization of a tour document: what the rewrite in
`update_tour_durations` writes to `tour.json`. -/
def serialize (t : Tour) : String := serializeWith t (t.stops.map serializeStop)

/-- The canonical serialization of `t` with the stops' `audioDuration`
values replaced positionally by `ds`. -/
def serializeD (t : Tour) (ds : List (Option Int)) : String :=
  serializeWith t (List.zipWith serializeStopD t.stops ds)

/-- Result of the per-stop loop of `update_tour_durations`: the stop list
after in-place mutation, the `updated` flag, and the ids of stops whose
duration read raised (each producing a printed warning). -/
structure DurStepResult where
  stops : List Stop
  updated : Bool
  warnings : List Nat
deriving DecidableEq

/-- The per-stop loop of `update_tour_durations`: for each stop resolve the
audio path; when the file exists, read its length (`MP3(path).info.length`);
on success set `audioDuration` to the truncated seconds when it differs from
the recorded value; when reading raises, print a warning and continue. -/
def durStep (tourPath : String) (fs : List String) (readLen : String → Option ℚ) :
    List Stop → DurStepResult
  | [] => ⟨[], false, []⟩
  | s :: rest =>
    let r := durStep tourPath fs readLen rest
    let path := resolveRead tourPath s
    if fs.contains path then
      match readLen path with
      | some q =>
        let d := pyInt q
        if s.audioDuration ≠ some d then
          ⟨{ s with audioDuration := some d } :: r.stops, true, r.warnings⟩
        else
          ⟨s :: r.stops, r.updated, r.warnings⟩
      | none => ⟨s :: r.stops, r.updated, s.id :: r.warnings⟩
    else
      ⟨s :: r.stops, r.updated, r.warnings⟩

/-- Result of `update_tour_durations`: the document after the run, the
content written back to `tour.json` (`none` when the file is not rewritten),
whether the "install mutagen" note was printed, and the read-failure
warnings. -/
structure DurResult where
  tour : Tour
  written : Option String
  mutagenNote : Bool
  warnings : List Nat
deriving DecidableEq

/-- `update_tour_durations(tour_folder)`: when `mutagen` cannot be imported,
print a note and return; otherwise load the document (`tour` is the parsed
content of `tour.json`), update each stop's duration from the audio files,
and rewrite `tour.json` (via `json.dump(tour, indent=2, ensure_ascii=False)`)
only when at least one value changed. -/
def update_tour_durations (mutagenAvailable : Bool) (tourFolder : String)
    (tour : Tour) (fs : List String) (readLen : String → Option ℚ) : DurResult :=
  if !mutagenAvailable then
    ⟨tour, none, true, []⟩
  else
    let r := durStep tourFolder fs readLen tour.stops
    let tour' : Tour := { tour with stops := r.stops }
    ⟨tour', if r.updated then some (serialize tour') else none, false, r.warnings⟩

/-- Whether the duration-update loop will correct this stop. -/
def needsUpdate (tp : String) (fs : List String) (readLen : String → Option ℚ) (s : Stop) : Bool :=
  fs.contains (resolveRead tp s) &&
    match readLen (resolveRead tp s) with
    | some q => decide (s.audioDuration ≠ some (pyInt q))
    | none => false

/-- The stop as the duration-update loop leaves it. -/
def correctedStop (tp : String) (fs : List String) (readLen : String → Option ℚ) (s : Stop) : Stop :=
  if fs.contains (resolveRead tp s) then
    match readLen (resolveRead tp s) with
    | some q => if s.audioDuration ≠ some (pyInt q) then { s with audioDuration := some (pyInt q) } else s
    | none => s
  else s

theorem natDigitsF_irrel (f : Nat) : ∀ g n, n < f → n < g → natDigitsF f n = natDigitsF g n := by
  induction f with
  | zero => intro g n h; omega
  | succ f ih =>
    intro g n hf hg
    cases g with
    | zero => omega
    | succ g =>
      simp only [natDigitsF]
      by_cases h10 : n < 10
      · simp [h10]
      · simp only [h10, if_false]
        have hd : n / 10 < n := Nat.div_lt_self (by omega) (by omega)
        rw [ih g (n / 10) (by omega) (by omega)]

theorem natDigits_eq (n : Nat) :
    natDigits n = if n < 10 then [digitChar n] else natDigits (n / 10) ++ [digitChar (n % 10)] := by
  unfold natDigits
  conv_lhs => rw [natDigitsF]
  by_cases h10 : n < 10
  · simp [h10]
  · simp only [h10, if_false]
    have hd : n / 10 < n := Nat.div_lt_self (by omega) (by omega)
    rw [natDigitsF_irrel n (n / 10 + 1) (n / 10) (by omega) (by omega)]

theorem natDigits_lt10 (n : Nat) (h : n < 10) : natDigits n = [digitChar n] := by
  rw [natDigits_eq]; simp [h]

theorem natDigits_ne_nil (n : Nat) : natDigits n ≠ [] := by
  rw [natDigits_eq]
  by_cases h10 : n < 10 <;> simp [h10]

theorem natDigits_length_two (n : Nat) (h : 10 ≤ n) : 2 ≤ (natDigits n).length := by
  rw [natDigits_eq]
  have h10 : ¬ n < 10 := by omega
  simp only [h10, if_false, List.length_append, List.length_singleton]
  have := natDigits_ne_nil (n / 10)
  have : 1 ≤ (natDigits (n / 10)).length := by
    cases hE : natDigits (n / 10) with
    | nil => exact absurd hE this
    | cons a t => simp
  omega

theorem digitChar_injOn : ∀ d < 10, ∀ e < 10, digitChar d = digitChar e → d = e := by decide

theorem natDigits_inj (m : Nat) : ∀ n, natDigits m = natDigits n → m = n := by
  induction m using Nat.strong_induction_on with
  | _ m ih =>
    intro n h
    by_cases hm : m < 10 <;> by_cases hn : n < 10
    · rw [natDigits_lt10 m hm, natDigits_lt10 n hn] at h
      simp at h
      exact digitChar_injOn m hm n hn h
    · have h2 := natDigits_length_two n (by omega)
      rw [← h, natDigits_lt10 m hm] at h2
      simp at h2
    · have h2 := natDigits_length_two m (by omega)
      rw [h, natDigits_lt10 n hn] at h2
      simp at h2
    · rw [natDigits_eq m, natDigits_eq n] at h
      simp only [hm, hn, if_false] at h
      obtain ⟨h1, h2⟩ := List.append_inj' h rfl
      have e1 : m / 10 = n / 10 :=
        ih (m / 10) (Nat.div_lt_self (by omega) (by omega)) (n / 10) h1
      have e2 : m % 10 = n % 10 := by
        simp at h2
        exact digitChar_injOn (m % 10) (Nat.mod_lt m (by omega)) (n % 10) (Nat.mod_lt n (by omega)) h2
      omega

theorem natDigits_head_ne_zero (m : Nat) : 1 ≤ m → (natDigits m).head? ≠ some '0' := by
  induction m using Nat.strong_induction_on with
  | _ m ih =>
    intro h1
    by_cases hm : m < 10
    · rw [natDigits_lt10 m hm]
      have : ∀ d, d < 10 → 1 ≤ d → digitChar d ≠ '0' := by decide
      simp only [List.head?_cons, ne_eq, Option.some.injEq]
      exact this m hm h1
    · rw [natDigits_eq]
      simp only [hm, if_false]
      have hd : m / 10 < m := Nat.div_lt_self (by omega) (by omega)
      have h1' : 1 ≤ m / 10 := by omega
      have := ih (m / 10) hd h1'
      cases hE : natDigits (m / 10) with
      | nil => exact absurd hE (natDigits_ne_nil (m / 10))
      | cons a t =>
        rw [hE] at this
        simpa using this

theorem natStr_data (n : Nat) : (natStr n).data = natDigits n := rfl

theorem format02_data (n : Nat) :
    (format02 n).data = if n < 10 then '0' :: natDigits n else natDigits n := by
  unfold format02
  by_cases h : n < 10 <;> simp [h, String.data_append, natStr_data]

theorem format02_inj (m n : Nat) (h : format02 m = format02 n) : m = n := by
  have hd : (format02 m).data = (format02 n).data := by rw [h]
  rw [format02_data, format02_data] at hd
  by_cases hm : m < 10 <;> by_cases hn : n < 10
  · simp only [hm, hn, if_true, List.cons.injEq] at hd
    exact natDigits_inj m n hd.2
  · simp only [hm, hn, if_true, if_false] at hd
    have := natDigits_head_ne_zero n (by omega)
    rw [← hd] at this
    simp at this
  · simp only [hm, hn, if_true, if_false] at hd
    have := natDigits_head_ne_zero m (by omega)
    rw [hd] at this
    simp at this
  · simp only [hm, hn, if_false] at hd
    exact natDigits_inj m n hd

theorem defaultName_inj (tf : String) (m n : Nat)
    (h : joinPath tf ("audio/" ++ format02 m ++ "-stop.mp3") =
         joinPath tf ("audio/" ++ format02 n ++ "-stop.mp3")) : m = n := by
  have hd := congrArg String.data h
  simp only [joinPath, String.data_append, List.append_assoc, List.append_cancel_left_eq,
    List.append_cancel_right_eq] at hd
  apply format02_inj
  apply String.ext
  simpa using hd

theorem myPrefapp (l1 l2 : List Char) : l1.isPrefixOf (l1 ++ l2) = true := by
  induction l1 with
  | nil => simp [List.isPrefixOf]
  | cons a t ih => simp [List.isPrefixOf, ih]

theorem resolveWrite_default (tp : String) (s : Stop) (h : s.audioFile = none) :
    resolveWrite tp s = joinPath tp ("audio/" ++ format02 s.id ++ "-stop.mp3") := by
  unfold resolveWrite
  rw [h]
  have hpre : pyStartsWith ("audio/" ++ format02 s.id ++ "-stop.mp3") "audio/" = true := by
    unfold pyStartsWith
    rw [show ("audio/" ++ format02 s.id ++ "-stop.mp3").data
          = "audio/".data ++ (format02 s.id ++ "-stop.mp3").data from by
        simp [String.data_append]]
    exact myPrefapp _ _
  simp [hpre]

theorem runStops_cons (tp : String) (ov : Bool) (so : Stop → Bool)
    (s : Stop) (rest : List Stop) (fs : List String) :
    runStops tp ov so (s :: rest) fs =
      if fs.contains (resolveWrite tp s) && !ov then
        ⟨(runStops tp ov so rest fs).ok, (runStops tp ov so rest fs).fs,
         Event.skipped s.id :: (runStops tp ov so rest fs).events⟩
      else if so s then
        ⟨(runStops tp ov so rest (resolveWrite tp s :: fs)).ok,
         (runStops tp ov so rest (resolveWrite tp s :: fs)).fs,
         Event.synthesized (resolveWrite tp s) :: (runStops tp ov so rest (resolveWrite tp s :: fs)).events⟩
      else ⟨false, fs, [Event.failed s.id]⟩ := rfl

theorem runStops_append (tp : String) (ov : Bool) (so : Stop → Bool)
    (l1 l2 : List Stop) (fs : List String) :
    runStops tp ov so (l1 ++ l2) fs =
      if (runStops tp ov so l1 fs).ok then
        ⟨(runStops tp ov so l2 (runStops tp ov so l1 fs).fs).ok,
         (runStops tp ov so l2 (runStops tp ov so l1 fs).fs).fs,
         (runStops tp ov so l1 fs).events ++ (runStops tp ov so l2 (runStops tp ov so l1 fs).fs).events⟩
      else runStops tp ov so l1 fs := by
  induction l1 generalizing fs with
  | nil => simp [runStops]
  | cons s t ih =>
    rw [List.cons_append, runStops_cons, runStops_cons]
    by_cases hc : (fs.contains (resolveWrite tp s) && !ov) = true
    · rw [if_pos hc, if_pos hc, ih]
      by_cases hok : (runStops tp ov so t fs).ok = true <;> simp [hok]
    · rw [if_neg hc, if_neg hc]
      by_cases hs : so s = true
      · rw [if_pos hs, if_pos hs, ih]
        by_cases hok : (runStops tp ov so t (resolveWrite tp s :: fs)).ok = true <;> simp [hok]
      · rw [if_neg hs, if_neg hs]
        simp

theorem runStops_all_new (tp : String) (so : Stop → Bool) (stops : List Stop) (fs : List String)
    (hsynth : ∀ s ∈ stops, so s = true)
    (hnew : ∀ s ∈ stops, fs.contains (resolveWrite tp s) = false)
    (hnodup : (stops.map (resolveWrite tp)).Nodup) :
    (runStops tp false so stops fs).ok = true ∧
    (runStops tp false so stops fs).events
      = stops.map (fun s => Event.synthesized (resolveWrite tp s)) := by
  induction stops generalizing fs with
  | nil => simp [runStops]
  | cons s t ih =>
    rw [runStops_cons]
    have hc0 : fs.contains (resolveWrite tp s) = false := hnew s (List.mem_cons_self s t)
    rw [if_neg (by simpa using hc0)]
    rw [if_pos (hsynth s (List.mem_cons_self s t))]
    have hnodup' : (t.map (resolveWrite tp)).Nodup := by
      simp only [List.map_cons, List.nodup_cons] at hnodup
      exact hnodup.2
    have hne : ∀ s' ∈ t, resolveWrite tp s' ≠ resolveWrite tp s := by
      intro s' hs' heq
      simp only [List.map_cons, List.nodup_cons, List.mem_map] at hnodup
      exact hnodup.1 ⟨s', hs', heq⟩
    have hnew' : ∀ s' ∈ t, (resolveWrite tp s :: fs).contains (resolveWrite tp s') = false := by
      intro s' hs'
      simp only [List.contains_cons, Bool.or_eq_false_iff]
      constructor
      · simpa using hne s' hs'
      · exact hnew s' (List.mem_cons_of_mem s hs')
    have hmain := ih (resolveWrite tp s :: fs)
      (fun s' hs' => hsynth s' (List.mem_cons_of_mem s hs')) hnew' hnodup'
    simp [hmain.1, hmain.2]

theorem durStep_stops (tp : String) (fs : List String) (readLen : String → Option ℚ)
    (stops : List Stop) :
    (durStep tp fs readLen stops).stops = stops.map (correctedStop tp fs readLen) := by
  induction stops with
  | nil => simp [durStep]
  | cons s t ih =>
    simp only [durStep, List.map_cons]
    by_cases hc : fs.contains (resolveRead tp s) = true
    · have hm : resolveRead tp s ∈ fs := by simpa using hc
      cases hq : readLen (resolveRead tp s) with
      | none => simp [correctedStop, hm, hq, ih]
      | some q =>
        by_cases hd : s.audioDuration = some (pyInt q)
        · simp [correctedStop, hm, hq, hd, ih]
        · simp [correctedStop, hm, hq, hd, ih]
    · have hm : resolveRead tp s ∉ fs := by simpa using hc
      simp [correctedStop, hm, ih]

theorem durStep_updated (tp : String) (fs : List String) (readLen : String → Option ℚ)
    (stops : List Stop) :
    (durStep tp fs readLen stops).updated = stops.any (needsUpdate tp fs readLen) := by
  induction stops with
  | nil => simp [durStep]
  | cons s t ih =>
    simp only [durStep, List.any_cons]
    by_cases hc : fs.contains (resolveRead tp s) = true
    · have hm : resolveRead tp s ∈ fs := by simpa using hc
      cases hq : readLen (resolveRead tp s) with
      | none => simp [needsUpdate, hm, hq, ih]
      | some q =>
        by_cases hd : s.audioDuration = some (pyInt q)
        · simp [needsUpdate, hm, hq, hd, ih]
        · simp [needsUpdate, hm, hq, hd, ih]
    · have hm : resolveRead tp s ∉ fs := by simpa using hc
      simp [needsUpdate, hm, ih]

theorem durStep_append (tp : String) (fs : List String) (readLen : String → Option ℚ)
    (l1 l2 : List Stop) :
    durStep tp fs readLen (l1 ++ l2) =
      ⟨(durStep tp fs readLen l1).stops ++ (durStep tp fs readLen l2).stops,
       (durStep tp fs readLen l1).updated || (durStep tp fs readLen l2).updated,
       (durStep tp fs readLen l1).warnings ++ (durStep tp fs readLen l2).warnings⟩ := by
  induction l1 with
  | nil => simp [durStep]
  | cons s t ih =>
    simp only [List.cons_append, durStep]
    by_cases hc : fs.contains (resolveRead tp s) = true
    · have hm : resolveRead tp s ∈ fs := by simpa using hc
      cases hq : readLen (resolveRead tp s) with
      | none => simp [hm, hq, ih]
      | some q =>
        by_cases hd : s.audioDuration = some (pyInt q)
        · simp [hm, hq, hd, ih, Bool.or_assoc]
        · simp [hm, hq, hd, ih]
    · have hm : resolveRead tp s ∉ fs := by simpa using hc
      simp [hm, ih, Bool.or_assoc]

theorem correctedStop_fields (tp : String) (fs : List String) (readLen : String → Option ℚ)
    (s : Stop) :
    (correctedStop tp fs readLen s).id = s.id ∧
    (correctedStop tp fs readLen s).name = s.name ∧
    (correctedStop tp fs readLen s).script = s.script ∧
    (correctedStop tp fs readLen s).audioFile = s.audioFile := by
  unfold correctedStop
  by_cases hc : fs.contains (resolveRead tp s) = true
  · have hm : resolveRead tp s ∈ fs := by simpa using hc
    cases hq : readLen (resolveRead tp s) with
    | none => simp [hm, hq]
    | some q =>
      by_cases hd : s.audioDuration = some (pyInt q)
      · simp [hm, hq, hd]
      · simp [hm, hq, hd]
  · have hm : resolveRead tp s ∉ fs := by simpa using hc
    simp [hm]

theorem correctedStop_of_match (tp : String) (fs : List String) (readLen : String → Option ℚ)
    (s : Stop)
    (h : ∀ q, fs.contains (resolveRead tp s) = true →
          readLen (resolveRead tp s) = some q → s.audioDuration = some (pyInt q)) :
    correctedStop tp fs readLen s = s := by
  unfold correctedStop
  by_cases hc : fs.contains (resolveRead tp s) = true
  · have hm : resolveRead tp s ∈ fs := by simpa using hc
    cases hq : readLen (resolveRead tp s) with
    | none => simp [hm, hq]
    | some q => simp [hm, hq, h q hc hq]
  · have hm : resolveRead tp s ∉ fs := by simpa using hc
    simp [hm]

theorem needsUpdate_false_of_match (tp : String) (fs : List String) (readLen : String → Option ℚ)
    (s : Stop)
    (h : ∀ q, fs.contains (resolveRead tp s) = true →
          readLen (resolveRead tp s) = some q → s.audioDuration = some (pyInt q)) :
    needsUpdate tp fs readLen s = false := by
  unfold needsUpdate
  by_cases hc : fs.contains (resolveRead tp s) = true
  · have hm : resolveRead tp s ∈ fs := by simpa using hc
    cases hq : readLen (resolveRead tp s) with
    | none => simp [hm, hq]
    | some q => simp [hm, hq, h q hc hq]
  · have hm : resolveRead tp s ∉ fs := by simpa using hc
    simp [hm]

theorem serializeStopD_congr (s s' : Stop) (d : Option Int)
    (h1 : s.id = s'.id) (h2 : s.name = s'.name) (h3 : s.script = s'.script)
    (h4 : s.audioFile = s'.audioFile) :
    serializeStopD s d = serializeStopD s' d := by
  simp [serializeStopD, h1, h2, h3, h4]

theorem serializeD_self (t : Tour) :
    serializeD t (t.stops.map Stop.audioDuration) = serialize t := by
  unfold serializeD serialize
  congr 1
  rw [List.zipWith_map_right, List.zipWith_same]
  rfl

theorem serialize_corrected (tp : String) (fs : List String) (readLen : String → Option ℚ)
    (t : Tour) :
    serialize { t with stops := t.stops.map (correctedStop tp fs readLen) } =
      serializeD t ((t.stops.map (correctedStop tp fs readLen)).map Stop.audioDuration) := by
  have hlist : t.stops.map (serializeStop ∘ correctedStop tp fs readLen)
      = t.stops.map (fun s => serializeStopD s (correctedStop tp fs readLen s).audioDuration) := by
    apply List.map_congr_left
    intro s _
    have hf := correctedStop_fields tp fs readLen s
    exact serializeStopD_congr _ _ _ hf.1 hf.2.1 hf.2.2.1 hf.2.2.2
  unfold serialize serializeD serializeWith
  simp only [List.map_map, List.zipWith_map_right, List.zipWith_same]
  rw [hlist]
  simp [Function.comp]

/-- Claim C1: if synthesis for some stop raises an exception during a run of
`process_tour` (the stop is reached with a successful prefix, it is not
skipped, and its synthesis call fails), then no stop after it in iteration
order is processed — the trace ends at the failure event, so no synthesis
call and no file write happens for any later stop — and `process_tour`
returns failure (`false`). -/
theorem c1_synthesis_failure_aborts (tf nm : String) (ov : Bool) (so : Stop → Bool)
    (fs : List String) (l1 : List Stop) (s : Stop) (l2 : List Stop)
    (hjson : fs.contains (joinPath tf "tour.json") = true)
    (hpre : (runStops tf ov so l1 fs).ok = true)
    (hnoskip : ((runStops tf ov so l1 fs).fs.contains (resolveWrite tf s) && !ov) = false)
    (hfail : so s = false) :
    process_tour tf ⟨nm, l1 ++ s :: l2⟩ ov so fs =
      ⟨false, (runStops tf ov so l1 fs).fs,
       Event.readTour :: Event.mkdirAudio ::
         ((runStops tf ov so l1 fs).events ++ [Event.failed s.id])⟩ := by
  unfold process_tour
  rw [if_pos hjson]
  have hr : runStops tf ov so (l1 ++ s :: l2) fs =
      ⟨false, (runStops tf ov so l1 fs).fs,
       (runStops tf ov so l1 fs).events ++ [Event.failed s.id]⟩ := by
    rw [runStops_append, if_pos hpre, runStops_cons,
      if_neg (by simpa using hnoskip), if_neg (by simp [hfail])]
  simp [hr]

/-- Concrete witness for claim C1. -/
theorem c1_synthesis_failure_aborts_witness :
    (["T/tour.json"].contains (joinPath "T" "tour.json") = true) ∧
    ((runStops "T" false (fun _ => false) [] ["T/tour.json"]).ok = true) ∧
    (((runStops "T" false (fun _ => false) [] ["T/tour.json"]).fs.contains
        (resolveWrite "T" ⟨1, "a", "x", none, none⟩) && !false) = false) ∧
    ((fun _ => false) (⟨1, "a", "x", none, none⟩ : Stop) = false) ∧
    process_tour "T" ⟨"t", [] ++ (⟨1, "a", "x", none, none⟩ : Stop) :: [⟨2, "b", "y", none, none⟩]⟩
        false (fun _ => false) ["T/tour.json"] =
      ⟨false, (runStops "T" false (fun _ => false) [] ["T/tour.json"]).fs,
       Event.readTour :: Event.mkdirAudio ::
         ((runStops "T" false (fun _ => false) [] ["T/tour.json"]).events ++
           [Event.failed (⟨1, "a", "x", none, none⟩ : Stop).id])⟩ :=
  ⟨by decide, by decide, by decide, by decide,
   c1_synthesis_failure_aborts "T" "t" false (fun _ => false) ["T/tour.json"]
     [] ⟨1, "a", "x", none, none⟩ [⟨2, "b", "y", none, none⟩]
     (by decide) (by decide) (by decide) (by decide)⟩

/-- Claim C2: for every stop, `process_tour` without the overwrite flag makes
no synthesis call when the stop's target audio file already exists (the
stop's only event is `skipped`, with no synthesis and no write), and with
the overwrite flag it synthesizes the stop regardless of whether the target
file exists (the stop's event is `synthesized` or `failed` for any
filesystem). -/
theorem c2_skip_existing_overwrite_resynthesizes (tf nm : String) (so : Stop → Bool)
    (fs : List String) (l1 : List Stop) (s : Stop) (l2 : List Stop)
    (hjson : fs.contains (joinPath tf "tour.json") = true) :
    ((runStops tf false so l1 fs).ok = true →
     (runStops tf false so l1 fs).fs.contains (resolveWrite tf s) = true →
     process_tour tf ⟨nm, l1 ++ s :: l2⟩ false so fs =
       ⟨(runStops tf false so l2 (runStops tf false so l1 fs).fs).ok,
        (runStops tf false so l2 (runStops tf false so l1 fs).fs).fs,
        Event.readTour :: Event.mkdirAudio ::
          ((runStops tf false so l1 fs).events ++ Event.skipped s.id ::
            (runStops tf false so l2 (runStops tf false so l1 fs).fs).events)⟩)
    ∧
    ((runStops tf true so l1 fs).ok = true →
     process_tour tf ⟨nm, l1 ++ s :: l2⟩ true so fs =
       (if so s then
          ⟨(runStops tf true so l2 (resolveWrite tf s :: (runStops tf true so l1 fs).fs)).ok,
           (runStops tf true so l2 (resolveWrite tf s :: (runStops tf true so l1 fs).fs)).fs,
           Event.readTour :: Event.mkdirAudio ::
             ((runStops tf true so l1 fs).events ++ Event.synthesized (resolveWrite tf s) ::
               (runStops tf true so l2 (resolveWrite tf s :: (runStops tf true so l1 fs).fs)).events)⟩
        else
          ⟨false, (runStops tf true so l1 fs).fs,
           Event.readTour :: Event.mkdirAudio ::
             ((runStops tf true so l1 fs).events ++ [Event.failed s.id])⟩)) := by
  constructor
  · intro hpre hex
    unfold process_tour
    rw [if_pos hjson]
    have hr : runStops tf false so (l1 ++ s :: l2) fs =
        ⟨(runStops tf false so l2 (runStops tf false so l1 fs).fs).ok,
         (runStops tf false so l2 (runStops tf false so l1 fs).fs).fs,
         (runStops tf false so l1 fs).events ++ Event.skipped s.id ::
           (runStops tf false so l2 (runStops tf false so l1 fs).fs).events⟩ := by
      rw [runStops_append, if_pos hpre, runStops_cons, if_pos (by simpa using hex)]
    simp [hr]
  · intro hpre
    unfold process_tour
    rw [if_pos hjson]
    by_cases hs : so s = true
    · have hr : runStops tf true so (l1 ++ s :: l2) fs =
          ⟨(runStops tf true so l2 (resolveWrite tf s :: (runStops tf true so l1 fs).fs)).ok,
           (runStops tf true so l2 (resolveWrite tf s :: (runStops tf true so l1 fs).fs)).fs,
           (runStops tf true so l1 fs).events ++ Event.synthesized (resolveWrite tf s) ::
             (runStops tf true so l2 (resolveWrite tf s :: (runStops tf true so l1 fs).fs)).events⟩ := by
        rw [runStops_append, if_pos hpre, runStops_cons, if_neg (by simp), if_pos hs]
      simp [hr, hs]
    · have hr : runStops tf true so (l1 ++ s :: l2) fs =
          ⟨false, (runStops tf true so l1 fs).fs,
           (runStops tf true so l1 fs).events ++ [Event.failed s.id]⟩ := by
        rw [runStops_append, if_pos hpre, runStops_cons, if_neg (by simp), if_neg hs]
      simp [hr, hs]

/-- Concrete witness for claim C2. -/
theorem c2_skip_existing_overwrite_resynthesizes_witness :
    (["T/tour.json", "T/audio/01-stop.mp3"].contains (joinPath "T" "tour.json") = true) ∧
    (((runStops "T" false (fun _ => true) [] ["T/tour.json", "T/audio/01-stop.mp3"]).ok = true →
      (runStops "T" false (fun _ => true) [] ["T/tour.json", "T/audio/01-stop.mp3"]).fs.contains
          (resolveWrite "T" ⟨1, "a", "x", none, none⟩) = true →
      process_tour "T" ⟨"t", [] ++ (⟨1, "a", "x", none, none⟩ : Stop) :: []⟩ false (fun _ => true)
          ["T/tour.json", "T/audio/01-stop.mp3"] =
        ⟨(runStops "T" false (fun _ => true) []
            (runStops "T" false (fun _ => true) [] ["T/tour.json", "T/audio/01-stop.mp3"]).fs).ok,
         (runStops "T" false (fun _ => true) []
            (runStops "T" false (fun _ => true) [] ["T/tour.json", "T/audio/01-stop.mp3"]).fs).fs,
         Event.readTour :: Event.mkdirAudio ::
           ((runStops "T" false (fun _ => true) [] ["T/tour.json", "T/audio/01-stop.mp3"]).events ++
             Event.skipped (⟨1, "a", "x", none, none⟩ : Stop).id ::
               (runStops "T" false (fun _ => true) []
                  (runStops "T" false (fun _ => true) []
                    ["T/tour.json", "T/audio/01-stop.mp3"]).fs).events)⟩)
     ∧
     ((runStops "T" true (fun _ => true) [] ["T/tour.json", "T/audio/01-stop.mp3"]).ok = true →
      process_tour "T" ⟨"t", [] ++ (⟨1, "a", "x", none, none⟩ : Stop) :: []⟩ true (fun _ => true)
          ["T/tour.json", "T/audio/01-stop.mp3"] =
        (if (fun _ => true) (⟨1, "a", "x", none, none⟩ : Stop) then
           ⟨(runStops "T" true (fun _ => true) []
               (resolveWrite "T" ⟨1, "a", "x", none, none⟩ ::
                 (runStops "T" true (fun _ => true) [] ["T/tour.json", "T/audio/01-stop.mp3"]).fs)).ok,
            (runStops "T" true (fun _ => true) []
               (resolveWrite "T" ⟨1, "a", "x", none, none⟩ ::
                 (runStops "T" true (fun _ => true) [] ["T/tour.json", "T/audio/01-stop.mp3"]).fs)).fs,
            Event.readTour :: Event.mkdirAudio ::
              ((runStops "T" true (fun _ => true) [] ["T/tour.json", "T/audio/01-stop.mp3"]).events ++
                Event.synthesized (resolveWrite "T" ⟨1, "a", "x", none, none⟩) ::
                  (runStops "T" true (fun _ => true) []
                     (resolveWrite "T" ⟨1, "a", "x", none, none⟩ ::
                       (runStops "T" true (fun _ => true) []
                         ["T/tour.json", "T/audio/01-stop.mp3"]).fs)).events)⟩
         else
           ⟨false, (runStops "T" true (fun _ => true) [] ["T/tour.json", "T/audio/01-stop.mp3"]).fs,
            Event.readTour :: Event.mkdirAudio ::
              ((runStops "T" true (fun _ => true) []
                 ["T/tour.json", "T/audio/01-stop.mp3"]).events ++
                [Event.failed (⟨1, "a", "x", none, none⟩ : Stop).id])⟩))) :=
  ⟨by decide,
   c2_skip_existing_overwrite_resynthesizes "T" "t" (fun _ => true)
     ["T/tour.json", "T/audio/01-stop.mp3"] [] ⟨1, "a", "x", none, none⟩ [] (by decide)⟩

/-- Claim C3: given a tour document with `N` stops (with distinct
identifiers), none of which has an explicit `audioFile` field, and no
pre-existing audio files, a successful full run of `process_tour` writes
exactly `N` audio files — one synthesis-and-write event per stop, at `N`
distinct paths — the file for each stop being placed beneath the `audio`
subdirectory at the zero-padded identifier-based default name
`audio/<id formatted as two digits>-stop.mp3`. -/
theorem c3_full_run_default_names (tf nm : String) (so : Stop → Bool)
    (fs : List String) (stops : List Stop)
    (hjson : fs.contains (joinPath tf "tour.json") = true)
    (hnone : ∀ s ∈ stops, s.audioFile = none)
    (hsynth : ∀ s ∈ stops, so s = true)
    (hnew : ∀ s ∈ stops,
      fs.contains (joinPath tf ("audio/" ++ format02 s.id ++ "-stop.mp3")) = false)
    (hids : (stops.map Stop.id).Nodup) :
    (process_tour tf ⟨nm, stops⟩ false so fs).ok = true ∧
    (process_tour tf ⟨nm, stops⟩ false so fs).events =
      Event.readTour :: Event.mkdirAudio ::
        stops.map (fun s =>
          Event.synthesized (joinPath tf ("audio/" ++ format02 s.id ++ "-stop.mp3"))) ∧
    (stops.map (fun s => joinPath tf ("audio/" ++ format02 s.id ++ "-stop.mp3"))).Nodup ∧
    (stops.map (fun s => joinPath tf ("audio/" ++ format02 s.id ++ "-stop.mp3"))).length
      = stops.length := by
  have hres : ∀ s ∈ stops,
      resolveWrite tf s = joinPath tf ("audio/" ++ format02 s.id ++ "-stop.mp3") :=
    fun s hs => resolveWrite_default tf s (hnone s hs)
  have hnodupP : (stops.map (fun s => joinPath tf ("audio/" ++ format02 s.id ++ "-stop.mp3"))).Nodup := by
    have : stops.map (fun s => joinPath tf ("audio/" ++ format02 s.id ++ "-stop.mp3"))
        = (stops.map Stop.id).map (fun i => joinPath tf ("audio/" ++ format02 i ++ "-stop.mp3")) := by
      rw [List.map_map]
      rfl
    rw [this]
    exact hids.map (fun a b hab => defaultName_inj tf a b hab)
  have hmapeq : stops.map (resolveWrite tf)
      = stops.map (fun s => joinPath tf ("audio/" ++ format02 s.id ++ "-stop.mp3")) :=
    List.map_congr_left hres
  have hnew' : ∀ s ∈ stops, fs.contains (resolveWrite tf s) = false := by
    intro s hs
    rw [hres s hs]
    exact hnew s hs
  have hmain := runStops_all_new tf so stops fs hsynth hnew' (hmapeq ▸ hnodupP)
  have hevents : stops.map (fun s => Event.synthesized (resolveWrite tf s))
      = stops.map (fun s =>
          Event.synthesized (joinPath tf ("audio/" ++ format02 s.id ++ "-stop.mp3"))) :=
    List.map_congr_left (fun s hs => by rw [hres s hs])
  refine ⟨?_, ?_, hnodupP, by simp⟩
  · unfold process_tour
    rw [if_pos hjson]
    simp [hmain.1]
  · unfold process_tour
    rw [if_pos hjson]
    simp [hmain.2, hevents]

/-- Concrete witness for claim C3. -/
theorem c3_full_run_default_names_witness :
    (["T/tour.json"].contains (joinPath "T" "tour.json") = true) ∧
    (∀ s ∈ [(⟨1, "a", "x", none, none⟩ : Stop), ⟨2, "b", "y", none, none⟩], s.audioFile = none) ∧
    (∀ s ∈ [(⟨1, "a", "x", none, none⟩ : Stop), ⟨2, "b", "y", none, none⟩],
      (fun _ => true : Stop → Bool) s = true) ∧
    (∀ s ∈ [(⟨1, "a", "x", none, none⟩ : Stop), ⟨2, "b", "y", none, none⟩],
      (["T/tour.json"].contains (joinPath "T" ("audio/" ++ format02 s.id ++ "-stop.mp3"))) = false) ∧
    (([(⟨1, "a", "x", none, none⟩ : Stop), ⟨2, "b", "y", none, none⟩].map Stop.id).Nodup) ∧
    ((process_tour "T" ⟨"t", [⟨1, "a", "x", none, none⟩, ⟨2, "b", "y", none, none⟩]⟩ false
        (fun _ => true) ["T/tour.json"]).ok = true ∧
     (process_tour "T" ⟨"t", [⟨1, "a", "x", none, none⟩, ⟨2, "b", "y", none, none⟩]⟩ false
        (fun _ => true) ["T/tour.json"]).events =
       Event.readTour :: Event.mkdirAudio ::
         [(⟨1, "a", "x", none, none⟩ : Stop), ⟨2, "b", "y", none, none⟩].map (fun s =>
           Event.synthesized (joinPath "T" ("audio/" ++ format02 s.id ++ "-stop.mp3"))) ∧
     ([(⟨1, "a", "x", none, none⟩ : Stop), ⟨2, "b", "y", none, none⟩].map (fun s =>
        joinPath "T" ("audio/" ++ format02 s.id ++ "-stop.mp3"))).Nodup ∧
     ([(⟨1, "a", "x", none, none⟩ : Stop), ⟨2, "b", "y", none, none⟩].map (fun s =>
        joinPath "T" ("audio/" ++ format02 s.id ++ "-stop.mp3"))).length
       = [(⟨1, "a", "x", none, none⟩ : Stop), ⟨2, "b", "y", none, none⟩].length) :=
  ⟨by decide, by decide, by decide, by decide, by decide,
   c3_full_run_default_names "T" "t" (fun _ => true) ["T/tour.json"]
     [⟨1, "a", "x", none, none⟩, ⟨2, "b", "y", none, none⟩]
     (by decide) (by decide) (by decide) (by decide) (by decide)⟩

/-- Claim C4: if the tour folder contains no `tour.json` file, `process_tour`
reports the error and returns failure before doing any work: no JSON
document is read or mutated, no directory is created, and no audio file is
written (the trace is empty and the filesystem unchanged). -/
theorem c4_missing_tour_json_aborts (tf : String) (tour : Tour) (ov : Bool)
    (so : Stop → Bool) (fs : List String)
    (hmiss : fs.contains (joinPath tf "tour.json") = false) :
    process_tour tf tour ov so fs = ⟨false, fs, []⟩ := by
  unfold process_tour
  rw [if_neg (by simpa using hmiss)]

/-- Concrete witness for claim C4. -/
theorem c4_missing_tour_json_aborts_witness :
    (([] : List String).contains (joinPath "T" "tour.json") = false) ∧
    process_tour "T" ⟨"t", [⟨1, "a", "x", none, none⟩]⟩ false (fun _ => true) [] =
      ⟨false, [], []⟩ :=
  ⟨by decide,
   c4_missing_tour_json_aborts "T" ⟨"t", [⟨1, "a", "x", none, none⟩]⟩ false (fun _ => true) []
     (by decide)⟩

/-- Claim C5: running `update_tour_durations` on a tour in which every
referenced audio file's actual integer-second duration already equals the
stop's recorded `audioDuration` leaves the `tour.json` document
byte-for-byte unmodified: the document is unchanged and the file is not
rewritten at all (nothing is written back). -/
theorem c5_matching_durations_no_rewrite (tf : String) (tour : Tour)
    (fs : List String) (readLen : String → Option ℚ)
    (hmatch : ∀ s ∈ tour.stops, ∀ q, fs.contains (resolveRead tf s) = true →
        readLen (resolveRead tf s) = some q → s.audioDuration = some (pyInt q)) :
    (update_tour_durations true tf tour fs readLen).tour = tour ∧
    (update_tour_durations true tf tour fs readLen).written = none := by
  have hstops : (durStep tf fs readLen tour.stops).stops = tour.stops := by
    rw [durStep_stops]
    have : ∀ s ∈ tour.stops, correctedStop tf fs readLen s = s := by
      intro s hs
      exact correctedStop_of_match tf fs readLen s (hmatch s hs)
    rw [List.map_congr_left this]
    simp
  have hupd : (durStep tf fs readLen tour.stops).updated = false := by
    rw [durStep_updated]
    simp only [List.any_eq_false]
    intro s hs
    simp [needsUpdate_false_of_match tf fs readLen s (hmatch s hs)]
  constructor
  · show ({ tour with stops := (durStep tf fs readLen tour.stops).stops } : Tour) = tour
    rw [hstops]
  · show (if (durStep tf fs readLen tour.stops).updated then _ else none) = none
    rw [hupd]
    simp

/-- Concrete witness for claim C5. -/
theorem c5_matching_durations_no_rewrite_witness :
    (∀ s ∈ ([⟨1, "a", "x", none, some 5⟩] : List Stop), ∀ q : ℚ,
      (["T/audio/01-stop.mp3"].contains (resolveRead "T" s)) = true →
      (fun _ => some (5 : ℚ)) (resolveRead "T" s) = some q →
      s.audioDuration = some (pyInt q)) ∧
    ((update_tour_durations true "T" ⟨"t", [⟨1, "a", "x", none, some 5⟩]⟩
        ["T/audio/01-stop.mp3"] (fun _ => some (5 : ℚ))).tour =
      ⟨"t", [⟨1, "a", "x", none, some 5⟩]⟩ ∧
     (update_tour_durations true "T" ⟨"t", [⟨1, "a", "x", none, some 5⟩]⟩
        ["T/audio/01-stop.mp3"] (fun _ => some (5 : ℚ))).written = none) := by
  have hmatch : ∀ s ∈ ([⟨1, "a", "x", none, some 5⟩] : List Stop), ∀ q : ℚ,
      (["T/audio/01-stop.mp3"].contains (resolveRead "T" s)) = true →
      (fun _ => some (5 : ℚ)) (resolveRead "T" s) = some q →
      s.audioDuration = some (pyInt q) := by
    intro s hs q _ hq
    simp only [List.mem_singleton] at hs
    subst hs
    have hq5 : (5 : ℚ) = q := by simpa using hq
    rw [← hq5]
    decide
  exact ⟨hmatch,
    c5_matching_durations_no_rewrite "T" ⟨"t", [⟨1, "a", "x", none, some 5⟩]⟩
      ["T/audio/01-stop.mp3"] (fun _ => some (5 : ℚ)) hmatch⟩

/-- Claim C6: running `update_tour_durations` when at least one stop's actual
duration differs from its recorded value rewrites `tour.json` such that
`audioDuration` is set to the truncated integer number of seconds for
exactly the stops whose durations differed, and every other field of every
stop (`id`, `name`, `script`, `audioFile`) and the unchanged stops'
`audioDuration` values are unmodified. -/
theorem c6_differing_durations_rewrite (tf : String) (tour : Tour)
    (fs : List String) (readLen : String → Option ℚ)
    (hdiff : tour.stops.any (needsUpdate tf fs readLen) = true) :
    (update_tour_durations true tf tour fs readLen).written ≠ none ∧
    (update_tour_durations true tf tour fs readLen).tour.stops
      = tour.stops.map (correctedStop tf fs readLen) ∧
    (∀ s, (correctedStop tf fs readLen s).id = s.id ∧
          (correctedStop tf fs readLen s).name = s.name ∧
          (correctedStop tf fs readLen s).script = s.script ∧
          (correctedStop tf fs readLen s).audioFile = s.audioFile) ∧
    (∀ s, needsUpdate tf fs readLen s = false → correctedStop tf fs readLen s = s) ∧
    (∀ s q, readLen (resolveRead tf s) = some q → needsUpdate tf fs readLen s = true →
       (correctedStop tf fs readLen s).audioDuration = some (pyInt q)) := by
  refine ⟨?_, ?_, correctedStop_fields tf fs readLen, ?_, ?_⟩
  · show (if (durStep tf fs readLen tour.stops).updated then
        some (serialize { tour with stops := (durStep tf fs readLen tour.stops).stops }) else none) ≠ none
    rw [durStep_updated, hdiff]
    simp
  · show ({ tour with stops := (durStep tf fs readLen tour.stops).stops } : Tour).stops = _
    rw [durStep_stops]
  · intro s hfalse
    unfold correctedStop
    unfold needsUpdate at hfalse
    by_cases hc : fs.contains (resolveRead tf s) = true
    · have hm : resolveRead tf s ∈ fs := by simpa using hc
      cases hq : readLen (resolveRead tf s) with
      | none => simp [hm, hq]
      | some q =>
        rw [hc, hq] at hfalse
        simp at hfalse
        simp [hm, hq, hfalse]
    · have hm : resolveRead tf s ∉ fs := by simpa using hc
      simp [hm]
  · intro s q hq htrue
    unfold needsUpdate at htrue
    unfold correctedStop
    by_cases hc : fs.contains (resolveRead tf s) = true
    · have hm : resolveRead tf s ∈ fs := by simpa using hc
      rw [hq] at htrue
      rw [hc] at htrue
      simp at htrue
      simp [hm, hq, htrue]
    · rw [hq] at htrue
      simp [hc] at htrue
      simp at hc
      exact absurd htrue.1 hc

/-- Concrete witness for claim C6. -/
theorem c6_differing_durations_rewrite_witness :
    (([⟨1, "a", "x", none, some 3⟩] : List Stop).any
      (needsUpdate "T" ["T/audio/01-stop.mp3"] (fun _ => some (5 : ℚ))) = true) ∧
    ((update_tour_durations true "T" ⟨"t", [⟨1, "a", "x", none, some 3⟩]⟩
        ["T/audio/01-stop.mp3"] (fun _ => some (5 : ℚ))).written ≠ none ∧
     (update_tour_durations true "T" ⟨"t", [⟨1, "a", "x", none, some 3⟩]⟩
        ["T/audio/01-stop.mp3"] (fun _ => some (5 : ℚ))).tour.stops =
       ([⟨1, "a", "x", none, some 3⟩] : List Stop).map
         (correctedStop "T" ["T/audio/01-stop.mp3"] (fun _ => some (5 : ℚ))) ∧
     (∀ s, (correctedStop "T" ["T/audio/01-stop.mp3"] (fun _ => some (5 : ℚ)) s).id = s.id ∧
       (correctedStop "T" ["T/audio/01-stop.mp3"] (fun _ => some (5 : ℚ)) s).name = s.name ∧
       (correctedStop "T" ["T/audio/01-stop.mp3"] (fun _ => some (5 : ℚ)) s).script = s.script ∧
       (correctedStop "T" ["T/audio/01-stop.mp3"] (fun _ => some (5 : ℚ)) s).audioFile = s.audioFile) ∧
     (∀ s, needsUpdate "T" ["T/audio/01-stop.mp3"] (fun _ => some (5 : ℚ)) s = false →
       correctedStop "T" ["T/audio/01-stop.mp3"] (fun _ => some (5 : ℚ)) s = s) ∧
     (∀ s q, (fun _ => some (5 : ℚ)) (resolveRead "T" s) = some q →
       needsUpdate "T" ["T/audio/01-stop.mp3"] (fun _ => some (5 : ℚ)) s = true →
       (correctedStop "T" ["T/audio/01-stop.mp3"] (fun _ => some (5 : ℚ)) s).audioDuration
         = some (pyInt q))) :=
  ⟨by decide,
   c6_differing_durations_rewrite "T" ⟨"t", [⟨1, "a", "x", none, some 3⟩]⟩
     ["T/audio/01-stop.mp3"] (fun _ => some (5 : ℚ)) (by decide)⟩

/-- Counterexample to claim C7 as stated: when `update_tour_durations`
rewrites the document, it does not in general preserve the input document's
formatting. For a compact, single-line input document describing the tour
named "t" with one stop of id 1 and recorded duration 3, whose stop's
actual duration is 5 seconds, the function rewrites the file (first
conjunct), but what it writes is neither the input with only the duration
value changed from 3 to 5 (second conjunct) nor the unchanged input (third
conjunct): it is the re-indented canonical serialization. -/
theorem c7_counterexample_reformatting :
    (update_tour_durations true "T" ⟨"t", [⟨1, "a", "s", none, some 3⟩]⟩
        ["T/audio/01-stop.mp3"] (fun _ => some (5 : ℚ))).written ≠ none ∧
    (update_tour_durations true "T" ⟨"t", [⟨1, "a", "s", none, some 3⟩]⟩
        ["T/audio/01-stop.mp3"] (fun _ => some (5 : ℚ))).written ≠
      some "\x7b\"name\": \"t\", \"stops\": [\x7b\"id\": 1, \"name\": \"a\", \"script\": \"s\", \"audioDuration\": 5\x7d]\x7d" ∧
    (update_tour_durations true "T" ⟨"t", [⟨1, "a", "s", none, some 3⟩]⟩
        ["T/audio/01-stop.mp3"] (fun _ => some (5 : ℚ))).written ≠
      some "\x7b\"name\": \"t\", \"stops\": [\x7b\"id\": 1, \"name\": \"a\", \"script\": \"s\", \"audioDuration\": 3\x7d]\x7d" := by
  refine ⟨?_, ?_, ?_⟩ <;> decide

/-- Claim C7 (amended): when `update_tour_durations` rewrites the JSON
document because values differ, the output is the canonical 2-space-indented
serialization of the updated document; it differs from the canonical
serialization of the parsed input document only in the `audioDuration`
values (the output is the input's canonical serialization with the duration
list replaced), so formatting is preserved only when the input was already
in that canonical form. -/
theorem c7_rewrite_is_canonical_serialization (tf : String) (tour : Tour)
    (fs : List String) (readLen : String → Option ℚ) :
    serialize tour = serializeD tour (tour.stops.map Stop.audioDuration) ∧
    ((update_tour_durations true tf tour fs readLen).written = none ∨
     (update_tour_durations true tf tour fs readLen).written =
       some (serializeD tour
         ((update_tour_durations true tf tour fs readLen).tour.stops.map Stop.audioDuration))) := by
  constructor
  · exact (serializeD_self tour).symm
  · by_cases hu : (durStep tf fs readLen tour.stops).updated = true
    · right
      show (if (durStep tf fs readLen tour.stops).updated then
          some (serialize { tour with stops := (durStep tf fs readLen tour.stops).stops })
        else none) =
        some (serializeD tour
          (({ tour with stops := (durStep tf fs readLen tour.stops).stops } : Tour).stops.map
            Stop.audioDuration))
      rw [hu, if_pos rfl, durStep_stops]
      exact congrArg some (serialize_corrected tf fs readLen tour)
    · left
      show (if (durStep tf fs readLen tour.stops).updated then
          some (serialize { tour with stops := (durStep tf fs readLen tour.stops).stops })
        else none) = none
      simp at hu
      rw [hu]
      simp

/-- Claim C8: if the optional audio-metadata library (`mutagen`) is
unavailable, `update_tour_durations` prints an informational note and
returns without raising, and the `tour.json` document is left unchanged:
the duration update is skipped entirely, nothing is written, and no
warnings are produced. -/
theorem c8_missing_mutagen_is_note_and_noop (tf : String) (tour : Tour)
    (fs : List String) (readLen : String → Option ℚ) :
    update_tour_durations false tf tour fs readLen = ⟨tour, none, true, []⟩ := rfl

/-- Claim C9: in `update_tour_durations`, a failure to read one audio file's
duration is not fatal to the batch: a warning is printed for that stop,
iteration continues with the remaining stops, and duration corrections
gathered for the other stops (before or after the failing one) are still
written out — the file is rewritten exactly when some other stop changed. -/
theorem c9_read_failure_not_fatal (tf nm : String) (fs : List String)
    (readLen : String → Option ℚ) (l1 : List Stop) (s : Stop) (l2 : List Stop)
    (hex : fs.contains (resolveRead tf s) = true)
    (hfail : readLen (resolveRead tf s) = none) :
    (update_tour_durations true tf ⟨nm, l1 ++ s :: l2⟩ fs readLen).tour.stops
      = (durStep tf fs readLen l1).stops ++ s :: (durStep tf fs readLen l2).stops ∧
    (update_tour_durations true tf ⟨nm, l1 ++ s :: l2⟩ fs readLen).warnings
      = (durStep tf fs readLen l1).warnings ++ s.id :: (durStep tf fs readLen l2).warnings ∧
    ((update_tour_durations true tf ⟨nm, l1 ++ s :: l2⟩ fs readLen).written = none ↔
      ((durStep tf fs readLen l1).updated || (durStep tf fs readLen l2).updated) = false) := by
  have hm : resolveRead tf s ∈ fs := by simpa using hex
  have hcons : durStep tf fs readLen (s :: l2) =
      ⟨s :: (durStep tf fs readLen l2).stops, (durStep tf fs readLen l2).updated,
       s.id :: (durStep tf fs readLen l2).warnings⟩ := by
    simp only [durStep]
    simp [hm, hfail]
  have hall : durStep tf fs readLen (l1 ++ s :: l2) =
      ⟨(durStep tf fs readLen l1).stops ++ s :: (durStep tf fs readLen l2).stops,
       (durStep tf fs readLen l1).updated || (durStep tf fs readLen l2).updated,
       (durStep tf fs readLen l1).warnings ++ s.id :: (durStep tf fs readLen l2).warnings⟩ := by
    rw [durStep_append, hcons]
  refine ⟨?_, ?_, ?_⟩
  · show ({ name := nm, stops := (durStep tf fs readLen (l1 ++ s :: l2)).stops } : Tour).stops = _
    rw [hall]
  · show (durStep tf fs readLen (l1 ++ s :: l2)).warnings = _
    rw [hall]
  · show (if (durStep tf fs readLen (l1 ++ s :: l2)).updated then _ else none) = none ↔ _
    rw [hall]
    by_cases hu : ((durStep tf fs readLen l1).updated || (durStep tf fs readLen l2).updated) = true
    · simp [hu]
    · simp at hu
      simp [hu]

/-- Concrete witness for claim C9. -/
theorem c9_read_failure_not_fatal_witness :
    (["T/audio/02-stop.mp3"].contains
      (resolveRead "T" ⟨2, "b", "y", none, some 7⟩) = true) ∧
    ((fun _ => (none : Option ℚ)) (resolveRead "T" ⟨2, "b", "y", none, some 7⟩) = none) ∧
    ((update_tour_durations true "T"
        ⟨"t", [⟨1, "a", "x", none, none⟩] ++ (⟨2, "b", "y", none, some 7⟩ : Stop) :: [⟨3, "c", "z", none, none⟩]⟩
        ["T/audio/02-stop.mp3"] (fun _ => (none : Option ℚ))).tour.stops =
      (durStep "T" ["T/audio/02-stop.mp3"] (fun _ => (none : Option ℚ)) [⟨1, "a", "x", none, none⟩]).stops ++
        (⟨2, "b", "y", none, some 7⟩ : Stop) ::
          (durStep "T" ["T/audio/02-stop.mp3"] (fun _ => (none : Option ℚ)) [⟨3, "c", "z", none, none⟩]).stops ∧
     (update_tour_durations true "T"
        ⟨"t", [⟨1, "a", "x", none, none⟩] ++ (⟨2, "b", "y", none, some 7⟩ : Stop) :: [⟨3, "c", "z", none, none⟩]⟩
        ["T/audio/02-stop.mp3"] (fun _ => (none : Option ℚ))).warnings =
      (durStep "T" ["T/audio/02-stop.mp3"] (fun _ => (none : Option ℚ)) [⟨1, "a", "x", none, none⟩]).warnings ++
        (⟨2, "b", "y", none, some 7⟩ : Stop).id ::
          (durStep "T" ["T/audio/02-stop.mp3"] (fun _ => (none : Option ℚ)) [⟨3, "c", "z", none, none⟩]).warnings ∧
     ((update_tour_durations true "T"
        ⟨"t", [⟨1, "a", "x", none, none⟩] ++ (⟨2, "b", "y", none, some 7⟩ : Stop) :: [⟨3, "c", "z", none, none⟩]⟩
        ["T/audio/02-stop.mp3"] (fun _ => (none : Option ℚ))).written = none ↔
      ((durStep "T" ["T/audio/02-stop.mp3"] (fun _ => (none : Option ℚ)) [⟨1, "a", "x", none, none⟩]).updated ||
        (durStep "T" ["T/audio/02-stop.mp3"] (fun _ => (none : Option ℚ)) [⟨3, "c", "z", none, none⟩]).updated) = false)) :=
  ⟨by decide, by decide,
   c9_read_failure_not_fatal "T" "t" ["T/audio/02-stop.mp3"] (fun _ => (none : Option ℚ))
     [⟨1, "a", "x", none, none⟩] ⟨2, "b", "y", none, some 7⟩ [⟨3, "c", "z", none, none⟩]
     (by decide) (by decide)⟩

/-- Claim C10: the audio path resolution used by `process_tour` (write side)
and by `update_tour_durations` (read side) is the same function of the
stop's fields: both use `audioFile` if present, else the default
`audio/<id formatted as two digits>-stop.mp3`, and both join a path that
starts with `audio/` directly under the tour folder and any other path
under the tour folder's `audio` subdirectory — so duration back-fill reads
exactly the files generation writes. -/
theorem c10_path_resolution_agrees (tp : String) (s : Stop) :
    resolveWrite tp s = resolveRead tp s ∧
    ((pyStartsWith (s.audioFile.getD ("audio/" ++ format02 s.id ++ "-stop.mp3")) "audio/" = true →
       resolveWrite tp s =
         joinPath tp (s.audioFile.getD ("audio/" ++ format02 s.id ++ "-stop.mp3"))) ∧
     (pyStartsWith (s.audioFile.getD ("audio/" ++ format02 s.id ++ "-stop.mp3")) "audio/" = false →
       resolveWrite tp s =
         joinPath (joinPath tp "audio") (s.audioFile.getD ("audio/" ++ format02 s.id ++ "-stop.mp3")))) := by
  refine ⟨rfl, ?_, ?_⟩
  · intro h
    unfold resolveWrite
    rw [if_pos h]
  · intro h
    unfold resolveWrite
    rw [if_neg (by simp [h])]

/-- Concrete witness for claim C10. -/
theorem c10_path_resolution_agrees_witness :
    resolveWrite "T" ⟨3, "a", "x", none, none⟩ = resolveRead "T" ⟨3, "a", "x", none, none⟩ ∧
    ((pyStartsWith ((⟨3, "a", "x", none, none⟩ : Stop).audioFile.getD
        ("audio/" ++ format02 (⟨3, "a", "x", none, none⟩ : Stop).id ++ "-stop.mp3")) "audio/" = true →
       resolveWrite "T" ⟨3, "a", "x", none, none⟩ =
         joinPath "T" ((⟨3, "a", "x", none, none⟩ : Stop).audioFile.getD
           ("audio/" ++ format02 (⟨3, "a", "x", none, none⟩ : Stop).id ++ "-stop.mp3"))) ∧
     (pyStartsWith ((⟨3, "a", "x", none, none⟩ : Stop).audioFile.getD
        ("audio/" ++ format02 (⟨3, "a", "x", none, none⟩ : Stop).id ++ "-stop.mp3")) "audio/" = false →
       resolveWrite "T" ⟨3, "a", "x", none, none⟩ =
         joinPath (joinPath "T" "audio") ((⟨3, "a", "x", none, none⟩ : Stop).audioFile.getD
           ("audio/" ++ format02 (⟨3, "a", "x", none, none⟩ : Stop).id ++ "-stop.mp3")))) :=
  c10_path_resolution_agrees "T" ⟨3, "a", "x", none, none⟩

